import Mathlib

/-!
Shallow embedding of the interactive generation loop of `run.cpp` (the
`run` function together with its `sigint_handler`).  The inference
backend (tokenizer, evaluator, sampler, detokenizer) is opaque to the
loop and is modelled as a structure of pure functions; console styling,
RNG seeding and thread counts have no effect on token flow and are left
out of the model.  Machine `int` counters that can go negative
(`n_predict`, `remaining_tokens`, `n_batch`) are modelled as `Int`;
counters that stay non-negative (`input_consumed`, `n_past`) as `Nat`.
-/

namespace LlamaRun

/-- Tokens are opaque vocabulary identifiers (`llama_token`). -/
abbrev Token := Nat

/-- The backend engine interface consumed by the loop:
`llama_tokenize`, `llama_eval` (here only its success/failure bit),
`llama_sample_top_p_top_k` (a pure function of the repetition window;
the numeric sampling parameters and the logits are internal to the
backend), `llama_token_to_str`, `llama_token_eos` and `llama_n_ctx`. -/
structure Backend where
  tokenize : String → Bool → List Token
  evalFails : List Token → Nat → Bool
  sample : List Token → Token
  tok2str : Token → String
  eos : Token
  n_ctx : Int

/-- The fields of `gpt_params` that the loop reads. -/
structure GptParams where
  prompt : String
  n_predict : Int
  repeat_last_n : Nat
  n_batch : Int
  interactive : Bool
  interactive_start : Bool
  instruct : Bool
  antiprompt : List String
  ignore_eos : Bool
  deriving Repr, DecidableEq

/-- The mutable state of one session of `run`:
`embd_inp` (pending-token queue), `input_consumed` (consumed cursor),
`last_n_tokens` (repetition window), `embd` (current batch),
`n_past`, `remaining_tokens` (generation budget), the `is_interacting`
flag, the `input_noecho` flag, and the lines still available on the
interactive input stream. -/
structure RunState where
  embd_inp : List Token
  input_consumed : Nat
  last_n_tokens : List Token
  embd : List Token
  n_past : Nat
  remaining_tokens : Int
  is_interacting : Bool
  input_noecho : Bool
  lines : List String
  deriving Repr, DecidableEq

/-- Observable interactions of one loop iteration with the backend and
the user: a `llama_eval` submission, a sampled token, a forwarded
pending token, and a solicitation of user input (with the buffer that
was read). -/
inductive Event where
  | evalCall (toks : List Token) (pos : Nat)
  | sampled (t : Token)
  | forwarded (t : Token)
  | solicited (buffer : String)
  deriving Repr, DecidableEq

/-- Result of one loop iteration: continue with a new state, leave the
loop via `break` (end-of-text, exits with result 0), or abort with
`return 1` (evaluation failure). -/
inductive StepResult where
  | next (s : RunState) (evs : List Event)
  | brk (evs : List Event)
  | fail (evs : List Event)
  deriving Repr, DecidableEq

/-- The events of a step, whichever way it ended. -/
def StepResult.events : StepResult → List Event
  | .next _ evs => evs
  | .brk evs => evs
  | .fail evs => evs

/-- `last_n_tokens.erase(last_n_tokens.begin()); last_n_tokens.push_back(t)`:
evict the oldest entry, then append. -/
def pushWindow (w : List Token) (t : Token) : List Token := w.tail ++ [t]

/-- The inner forwarding loop
`while ((int) embd_inp.size() > input_consumed) { ... }`:
push the next pending token onto the batch, record it into the
repetition window, advance the cursor, and stop early once the batch
has reached `n_batch`.  The structural fuel argument is instantiated
with the number of still-pending tokens, which bounds the iteration
count of the source loop, so the fuel never runs out before the loop
guard fails.  Returns the new cursor, batch, window and the events
emitted. -/
def forwardLoop (n_batch : Int) (embd_inp : List Token) :
    Nat → Nat → List Token → List Token → List Event →
    Nat × List Token × List Token × List Event
  | 0, consumed, embd, w, evs => (consumed, embd, w, evs)
  | fuel + 1, consumed, embd, w, evs =>
    if h : consumed < embd_inp.length then
      let t := embd_inp.get ⟨consumed, h⟩
      let embd2 := embd ++ [t]
      let w2 := pushWindow w t
      let evs2 := evs ++ [Event.forwarded t]
      if (embd2.length : Int) ≥ n_batch then
        (consumed + 1, embd2, w2, evs2)
      else
        forwardLoop n_batch embd_inp fuel (consumed + 1) embd2 w2 evs2
    else
      (consumed, embd, w, evs)

/-- The produce phase of one iteration (`run.cpp` lines 220–265): if the
pending queue is drained, sample exactly one token from the backend and
record it in the window (the `ignore_eos` logits tweak is internal to
the backend's sampling function); otherwise forward pending tokens.
The generation budget is decremented only on the sampling branch. -/
def producePhase (b : Backend) (p : GptParams) (s : RunState) :
    RunState × List Event :=
  if s.embd_inp.length ≤ s.input_consumed then
    let id := b.sample s.last_n_tokens
    ({ s with last_n_tokens := pushWindow s.last_n_tokens id,
              embd := s.embd ++ [id],
              input_noecho := false,
              remaining_tokens := s.remaining_tokens - 1 },
     [Event.sampled id])
  else
    let r := forwardLoop p.n_batch s.embd_inp
      (s.embd_inp.length - s.input_consumed) s.input_consumed s.embd
      s.last_n_tokens []
    ({ s with input_consumed := r.1, embd := r.2.1,
              last_n_tokens := r.2.2.1 },
     r.2.2.2)

/-- `last_output += llama_token_to_str(ctx, id)` over the window. -/
def render (b : Backend) (toks : List Token) : String :=
  toks.foldl (fun acc t => acc ++ b.tok2str t) ""

/-- The reverse-prompt test
`last_output.find(a.c_str(), last_output.length() - a.length(), a.length()) != npos`:
with the search position pinned to `length - a.length()` the only
possible hit is at the very end, so this succeeds exactly when the last
`a.length()` characters equal `a`; when `a` is longer than the output
the `size_t` position underflows past the end and the find misses. -/
def findAtEnd (hay pat : String) : Bool :=
  decide (pat.data.length ≤ hay.data.length) &&
    decide (hay.data.drop (hay.data.length - pat.data.length) = pat.data)

/-- Scan of all configured reverse prompts (`run.cpp` lines 289–294). -/
def checkAntiprompts (aps : List String) (out : String) : Bool :=
  aps.any (fun a => findAtEnd out a)

/-- The `do { getline; ... } while (another_line)` input reader: read
lines until one does not end in a backslash; a trailing backslash is
stripped and every read line contributes `line + "\n"` to the buffer.
`getline` at end of stream leaves the line empty, ending the loop. -/
def readLines : List String → String × List String
  | [] => ("\n", [])
  | l :: rest =>
    if l = "" ∨ l.back ≠ '\\' then (l ++ "\n", rest)
    else
      let r := readLines rest
      (l.dropRight 1 ++ "\n" ++ r.1, r.2)

/-- `inp_pfx`: instruct-mode prefix tokens (`run.cpp` line 127). -/
def inp_pfx (b : Backend) : List Token :=
  b.tokenize "\n\n### Instruction:\n\n" true

/-- `inp_sfx`: instruct-mode suffix tokens (`run.cpp` line 128). -/
def inp_sfx (b : Backend) : List Token :=
  b.tokenize "\n\n### Response:\n\n" false

/-- The interactive section of one iteration (`run.cpp` lines 279–334):
when interactive and the queue is drained, render the window, scan for
reverse prompts, and if interjection is requested solicit user input —
in instruct mode first advancing the cursor to the pre-injection queue
length and appending the instruction prefix, then appending the
tokenized input and, in instruct mode, the response suffix; the budget
is reduced by the number of freshly tokenized input tokens and the
`is_interacting` flag is consumed (reset to false) on the way out. -/
def interactiveCheck (b : Backend) (p : GptParams) (s : RunState) :
    RunState × List Event :=
  if p.interactive = true ∧ s.embd_inp.length ≤ s.input_consumed then
    let last_output := render b s.last_n_tokens
    let hit := checkAntiprompts p.antiprompt last_output
    if s.is_interacting = true ∨ hit = true then
      let q1 := if p.instruct then s.embd_inp ++ inp_pfx b else s.embd_inp
      let c1 := if p.instruct then s.embd_inp.length else s.input_consumed
      let r := readLines s.lines
      let line_inp := b.tokenize r.1 false
      let q2 := q1 ++ line_inp
      let q3 := if p.instruct then q2 ++ inp_sfx b else q2
      ({ s with embd_inp := q3,
                input_consumed := c1,
                remaining_tokens := s.remaining_tokens - line_inp.length,
                input_noecho := true,
                is_interacting := false,
                lines := r.2 },
       [Event.solicited r.1])
    else
      ({ s with is_interacting := false }, [])
  else
    (s, [])

/-- End-of-iteration budget check (`run.cpp` lines 346–350): in
interactive mode an exhausted budget is refilled to `n_predict` and the
interjection flag is raised. -/
def budgetCheck (p : GptParams) (s : RunState) : RunState :=
  if p.interactive = true ∧ s.remaining_tokens ≤ 0 then
    { s with remaining_tokens := p.n_predict, is_interacting := true }
  else s

/-- One iteration of the `while (remaining_tokens > 0 || params.interactive)`
loop body: evaluate the previous batch (aborting the session with
result 1 on backend failure), clear it, produce this iteration's batch
(sample or forward), run the interactive section, then the end-of-text
check on the batch's last token (`break` when not interactive, raise
`is_interacting` when interactive) and the budget check. -/
def step (b : Backend) (p : GptParams) (s0 : RunState) : StepResult :=
  let evalEvs : List Event :=
    if s0.embd = [] then [] else [Event.evalCall s0.embd s0.n_past]
  if s0.embd ≠ [] ∧ b.evalFails s0.embd s0.n_past = true then
    StepResult.fail evalEvs
  else
    let s1 := { s0 with n_past := s0.n_past + s0.embd.length, embd := [] }
    let pr := producePhase b p s1
    let ic := interactiveCheck b p pr.1
    let s3 := ic.1
    let evs := evalEvs ++ pr.2 ++ ic.2
    if s3.embd.getLast? = some b.eos then
      if p.interactive then
        StepResult.next (budgetCheck p { s3 with is_interacting := true }) evs
      else
        StepResult.brk evs
    else
      StepResult.next (budgetCheck p s3) evs

/-- The fuel-indexed main loop; `none` means fuel ran out with the loop
still running, `some r` is the value returned by `run`. -/
def loop (b : Backend) (p : GptParams) : Nat → RunState → List Event × Option Nat
  | 0, _ => ([], none)
  | fuel + 1, s =>
    if 0 < s.remaining_tokens ∨ p.interactive = true then
      match step b p s with
      | .next s2 evs =>
        let r := loop b p fuel s2
        (evs ++ r.1, r.2)
      | .brk evs => (evs, some 0)
      | .fail evs => (evs, some 1)
    else
      ([], some 0)

/-- Parameter normalization (`run.cpp` lines 130–143): instruct mode
forces interactive mode and registers the instruction marker as a
reverse prompt; a non-empty reverse-prompt list or `interactive_start`
also force interactive mode. -/
def normalizeParams (p0 : GptParams) : GptParams :=
  let p1 := if p0.instruct then
      { p0 with interactive := true,
                antiprompt := p0.antiprompt ++ ["### Instruction:\n\n"] }
    else p0
  let p2 := if p1.antiprompt.length ≠ 0 then { p1 with interactive := true }
    else p1
  if p2.interactive_start then { p2 with interactive := true } else p2

/-- Session state as set up before the loop: cursor at zero, repetition
window filled with the sentinel token 0 (`run.cpp` lines 176–178),
empty batch, budget at `n_predict`, and `is_interacting` raised only
when interactive mode starts in soliciting state. -/
def initState (p : GptParams) (embd_inp : List Token) (lines : List String) :
    RunState :=
  { embd_inp := embd_inp
    input_consumed := 0
    last_n_tokens := List.replicate p.repeat_last_n 0
    embd := []
    n_past := 0
    remaining_tokens := p.n_predict
    is_interacting := p.interactive && p.interactive_start
    input_noecho := false
    lines := lines }

/-- A whole session of `run`: the initial memory-probe evaluation of
`{0,1,2,3}` (whose failure is ignored), the leading-space insertion and
tokenization of the prompt, the clamp of `n_predict` to the remaining
context, parameter normalization, and the main loop. -/
def runSession (b : Backend) (p0 : GptParams) (lines : List String)
    (fuel : Nat) : List Event × Option Nat :=
  let promptTokens := b.tokenize (" " ++ p0.prompt) true
  let p1 := { p0 with
    n_predict := min p0.n_predict (b.n_ctx - promptTokens.length) }
  let p := normalizeParams p1
  let s := initState p promptTokens lines
  let r := loop b p fuel s
  (Event.evalCall [0, 1, 2, 3] 0 :: r.1, r.2)

/-- Effect of the interrupt handler on the process. -/
inductive SigAction where
  | continueWith (flag : Bool)
  | exitProcess (code : Nat)
  deriving Repr, DecidableEq

/-- `sigint_handler` (`run.cpp` lines 70–80): a first interrupt raises
`is_interacting`; a second one before the flag is consumed calls
`_exit(130)`. -/
def sigint_handler (is_interacting : Bool) : SigAction :=
  if !is_interacting then SigAction.continueWith true
  else SigAction.exitProcess 130

/-- States reachable by the loop from some initial session state. -/
inductive Reachable (b : Backend) (p : GptParams) : RunState → Prop
  | start : ∀ (inp : List Token) (lines : List String),
      Reachable b p (initState p inp lines)
  | advance : ∀ (s s2 : RunState) (evs : List Event),
      Reachable b p s → step b p s = StepResult.next s2 evs →
      Reachable b p s2

/-- Is this event a sampler invocation? -/
def Event.isSampled : Event → Bool
  | .sampled _ => true
  | _ => false

/-- Is this event an input solicitation? -/
def Event.isSolicited : Event → Bool
  | .solicited _ => true
  | _ => false

/-- Is this event a backend evaluation call? -/
def Event.isEvalCall : Event → Bool
  | .evalCall _ _ => true
  | _ => false

/-- Number of sampler invocations that happen strictly before the first
input solicitation of a trace. -/
def samplesBeforeFirstSolicit (evs : List Event) : Nat :=
  ((evs.takeWhile fun e => !e.isSolicited).filter Event.isSampled).length

/-- The events of a trace strictly after its first sampler invocation. -/
def afterFirstSample (evs : List Event) : List Event :=
  (evs.dropWhile fun e => !e.isSampled).drop 1

/-- A concrete executable backend used as stub: tokens are character
codes (with 1 as the leading marker), detokenization maps a token back
to its character, token 2 is end-of-sequence, evaluation never fails
and the sampler always returns `samp` of the window. -/
def mkBackend (samp : List Token → Token) (failEval : Bool) : Backend :=
  { tokenize := fun s bos => (if bos then [1] else []) ++ s.data.map Char.toNat
    evalFails := fun _ _ => failEval
    sample := samp
    tok2str := fun t => String.mk [Char.ofNat t]
    eos := 2
    n_ctx := 1000 }

/-- Stub backend whose sampler always returns the non-eos token 100. -/
def CB : Backend := mkBackend (fun _ => 100) false

/-- Stub backend whose sampler always returns the end-of-sequence token. -/
def CBeos : Backend := mkBackend (fun _ => 2) false

/-- Stub backend whose evaluator always fails. -/
def CBfail : Backend := mkBackend (fun _ => 100) true

/-- Interactive parameters with a generation budget of 3. -/
def baseParams : GptParams :=
  { prompt := ""
    n_predict := 3
    repeat_last_n := 4
    n_batch := 8
    interactive := true
    interactive_start := false
    instruct := false
    antiprompt := []
    ignore_eos := false }

/-- The interactive stub session's state at loop entry: the tokenized
prompt pending, nothing consumed. -/
def S1 : RunState := initState baseParams [1, 32] []

/-- `baseParams` with interactive mode off and a larger budget. -/
def noninteractiveParams : GptParams :=
  { baseParams with interactive := false, n_predict := 10 }

/-- `baseParams` with one configured reverse prompt. -/
def antipromptParams : GptParams :=
  { baseParams with antiprompt := ["### Instruction:\n\n"] }

/-- `baseParams` with instruct mode on. -/
def instructParams : GptParams := { baseParams with instruct := true }

/-- Parameters with instruct mode on but the interactive flag not set. -/
def instructOnlyParams : GptParams :=
  { baseParams with interactive := false, instruct := true }

/-- `baseParams` with a budget of 5. -/
def budgetFiveParams : GptParams := { baseParams with n_predict := 5 }

/-- A drained mid-session state: empty pending queue, zero-filled
window, empty batch. -/
def S6 : RunState :=
  { embd_inp := [], input_consumed := 0, last_n_tokens := [0, 0, 0, 0],
    embd := [], n_past := 0, remaining_tokens := 5, is_interacting := false,
    input_noecho := false, lines := [] }

/-- The state `step CBeos budgetFiveParams S6` continues with: the
end-of-sequence token was sampled and the interject flag raised. -/
def S6x : RunState :=
  { embd_inp := [], input_consumed := 0, last_n_tokens := [0, 0, 0, 2],
    embd := [2], n_past := 0, remaining_tokens := 4, is_interacting := true,
    input_noecho := false, lines := [] }

/-- A drained state whose window renders exactly to text ending in the
configured reverse prompt. -/
def S4 : RunState :=
  { embd_inp := [], input_consumed := 0,
    last_n_tokens := "x### Instruction:\n\n".data.map Char.toNat,
    embd := [5], n_past := 0, remaining_tokens := 3, is_interacting := false,
    input_noecho := false, lines := ["ok"] }

/-- A drained state with the interject flag raised and the line
`hello` available on the input stream. -/
def S5 : RunState :=
  { embd_inp := [9], input_consumed := 1, last_n_tokens := [0, 0, 0, 0],
    embd := [9], n_past := 0, remaining_tokens := 3, is_interacting := true,
    input_noecho := false, lines := ["hello"] }

/-- A state with a non-empty batch awaiting evaluation. -/
def S7 : RunState :=
  { embd_inp := [], input_consumed := 0, last_n_tokens := [0, 0, 0, 0],
    embd := [7], n_past := 1, remaining_tokens := 3, is_interacting := false,
    input_noecho := false, lines := [] }

/-- The session state after the produce phase and the interactive
section of one iteration, as read by the end-of-text and budget checks
inside `step`. -/
def midState (b : Backend) (p : GptParams) (s : RunState) : RunState :=
  (interactiveCheck b p
    (producePhase b p
      { s with n_past := s.n_past + s.embd.length, embd := [] }).1).1

/-- The events of one non-failing iteration. -/
def midEvents (b : Backend) (p : GptParams) (s : RunState) : List Event :=
  (if s.embd = [] then [] else [Event.evalCall s.embd s.n_past]) ++
  (producePhase b p
    { s with n_past := s.n_past + s.embd.length, embd := [] }).2 ++
  (interactiveCheck b p
    (producePhase b p
      { s with n_past := s.n_past + s.embd.length, embd := [] }).1).2

lemma pushWindow_length (w : List Token) (t : Token) (h : 0 < w.length) :
    (pushWindow w t).length = w.length := by
  cases w with
  | nil => simp at h
  | cons a l => simp [pushWindow]

lemma pushWindow_pos (w : List Token) (t : Token) :
    0 < (pushWindow w t).length := by
  simp [pushWindow]

lemma forwardLoop_spec (n_batch : Int) (inp : List Token) :
    ∀ (fuel c : Nat), inp.length - c ≤ fuel →
      ∀ (embd w : List Token) (evs : List Event),
      ∃ ts : List Token,
        (forwardLoop n_batch inp fuel c embd w evs).2.1 = embd ++ ts ∧
        (forwardLoop n_batch inp fuel c embd w evs).2.2.2
            = evs ++ ts.map Event.forwarded ∧
        (c < inp.length → ts ≠ []) ∧
        (0 < w.length →
          (forwardLoop n_batch inp fuel c embd w evs).2.2.1.length
            = w.length) ∧
        c ≤ (forwardLoop n_batch inp fuel c embd w evs).1 ∧
        (forwardLoop n_batch inp fuel c embd w evs).1 ≤ max c inp.length := by
  intro fuel
  induction fuel with
  | zero =>
    intro c hk embd w evs
    refine ⟨[], ?_⟩
    simp [forwardLoop]
    omega
  | succ k ih =>
    intro c hk embd w evs
    by_cases h : c < inp.length
    · rw [forwardLoop]
      rw [dif_pos h]
      by_cases hb : ((embd ++ [inp.get ⟨c, h⟩]).length : Int) ≥ n_batch
      · rw [if_pos hb]
        refine ⟨[inp.get ⟨c, h⟩], rfl, rfl, fun _ => by simp, ?_, ?_, ?_⟩
        · intro hw; exact pushWindow_length w _ hw
        · omega
        · have := le_max_right c inp.length; omega
      · rw [if_neg hb]
        obtain ⟨ts, h1, h2, _h3, h4, h5, h6⟩ :=
          ih (c + 1) (by omega) (embd ++ [inp.get ⟨c, h⟩])
            (pushWindow w (inp.get ⟨c, h⟩)) (evs ++ [Event.forwarded (inp.get ⟨c, h⟩)])
        refine ⟨inp.get ⟨c, h⟩ :: ts, ?_, ?_, fun _ => by simp, ?_, by omega, ?_⟩
        · rw [h1]; simp
        · rw [h2]; simp
        · intro hw
          rw [h4 (pushWindow_pos w _), pushWindow_length w _ hw]
        · have hmax : max (c + 1) inp.length = inp.length := by omega
          rw [hmax] at h6
          have := le_max_right c inp.length; omega
    · refine ⟨[], ?_⟩
      rw [forwardLoop]
      simp [h]

lemma producePhase_embd_inp (b : Backend) (p : GptParams) (s : RunState) :
    (producePhase b p s).1.embd_inp = s.embd_inp := by
  unfold producePhase
  split <;> rfl

lemma producePhase_npast (b : Backend) (p : GptParams) (s : RunState) :
    (producePhase b p s).1.n_past = s.n_past := by
  unfold producePhase
  split <;> rfl

lemma producePhase_drained (b : Backend) (p : GptParams) (s : RunState)
    (h : s.embd_inp.length ≤ s.input_consumed) :
    producePhase b p s =
      ({ s with
          last_n_tokens := pushWindow s.last_n_tokens (b.sample s.last_n_tokens),
          embd := s.embd ++ [b.sample s.last_n_tokens],
          input_noecho := false,
          remaining_tokens := s.remaining_tokens - 1 },
       [Event.sampled (b.sample s.last_n_tokens)]) := by
  unfold producePhase
  rw [if_pos h]

lemma producePhase_cursor (b : Backend) (p : GptParams) (s : RunState)
    (h : s.input_consumed ≤ s.embd_inp.length) :
    (producePhase b p s).1.input_consumed ≤ (producePhase b p s).1.embd_inp.length := by
  rw [producePhase_embd_inp]
  unfold producePhase
  split
  · simpa using h
  · obtain ⟨ts, _, _, _, _, _, h6⟩ :=
      forwardLoop_spec p.n_batch s.embd_inp (s.embd_inp.length - s.input_consumed)
        s.input_consumed le_rfl s.embd s.last_n_tokens []
    simpa using le_trans h6 (by omega)

lemma producePhase_window (b : Backend) (p : GptParams) (s : RunState)
    (h : 0 < s.last_n_tokens.length) :
    (producePhase b p s).1.last_n_tokens.length = s.last_n_tokens.length := by
  unfold producePhase
  split
  · simpa using pushWindow_length s.last_n_tokens _ h
  · obtain ⟨ts, _, _, _, h4, _, _⟩ :=
      forwardLoop_spec p.n_batch s.embd_inp (s.embd_inp.length - s.input_consumed)
        s.input_consumed le_rfl s.embd s.last_n_tokens []
    simpa using h4 h

lemma producePhase_embd_grows (b : Backend) (p : GptParams) (s : RunState) :
    ∃ ts : List Token, (producePhase b p s).1.embd = s.embd ++ ts ∧ ts ≠ [] := by
  unfold producePhase
  split
  · exact ⟨[b.sample s.last_n_tokens], rfl, by simp⟩
  · rename_i hlt
    obtain ⟨ts, h1, _, h3, _, _, _⟩ :=
      forwardLoop_spec p.n_batch s.embd_inp (s.embd_inp.length - s.input_consumed)
        s.input_consumed le_rfl s.embd s.last_n_tokens []
    exact ⟨ts, h1, h3 (by omega)⟩

lemma producePhase_events (b : Backend) (p : GptParams) (s : RunState) :
    (s.embd_inp.length ≤ s.input_consumed ∧
       (producePhase b p s).2 = [Event.sampled (b.sample s.last_n_tokens)]) ∨
    (s.input_consumed < s.embd_inp.length ∧
       (∀ e ∈ (producePhase b p s).2, ∃ t, e = Event.forwarded t) ∧
       (producePhase b p s).2 ≠ []) := by
  unfold producePhase
  split
  · left; exact ⟨by omega, rfl⟩
  · rename_i hlt
    right
    refine ⟨by omega, ?_⟩
    obtain ⟨ts, _, h2, h3, _, _, _⟩ :=
      forwardLoop_spec p.n_batch s.embd_inp (s.embd_inp.length - s.input_consumed)
        s.input_consumed le_rfl s.embd s.last_n_tokens []
    constructor
    · intro e he
      simp only at he
      rw [h2] at he
      simp only [List.nil_append, List.mem_map] at he
      obtain ⟨t, _, ht⟩ := he
      exact ⟨t, ht.symm⟩
    · simp only
      rw [h2]
      simpa using h3 (by omega)

lemma interactiveCheck_embd (b : Backend) (p : GptParams) (s : RunState) :
    (interactiveCheck b p s).1.embd = s.embd := by
  simp only [interactiveCheck]
  repeat' split
  all_goals rfl

lemma interactiveCheck_window (b : Backend) (p : GptParams) (s : RunState) :
    (interactiveCheck b p s).1.last_n_tokens = s.last_n_tokens := by
  simp only [interactiveCheck]
  repeat' split
  all_goals rfl

lemma interactiveCheck_npast (b : Backend) (p : GptParams) (s : RunState) :
    (interactiveCheck b p s).1.n_past = s.n_past := by
  simp only [interactiveCheck]
  repeat' split
  all_goals rfl

lemma interactiveCheck_cursor (b : Backend) (p : GptParams) (s : RunState)
    (h : s.input_consumed ≤ s.embd_inp.length) :
    (interactiveCheck b p s).1.input_consumed
      ≤ (interactiveCheck b p s).1.embd_inp.length := by
  simp only [interactiveCheck]
  repeat' split
  all_goals simp [List.length_append]
  all_goals omega

lemma interactiveCheck_events (b : Backend) (p : GptParams) (s : RunState) :
    (interactiveCheck b p s).2 = [] ∨
    (interactiveCheck b p s).2 = [Event.solicited (readLines s.lines).1] := by
  simp only [interactiveCheck]
  repeat' split
  all_goals first
    | (right; rfl)
    | (left; rfl)

lemma budgetCheck_fields (p : GptParams) (s : RunState) :
    (budgetCheck p s).embd_inp = s.embd_inp ∧
    (budgetCheck p s).input_consumed = s.input_consumed ∧
    (budgetCheck p s).last_n_tokens = s.last_n_tokens ∧
    (budgetCheck p s).embd = s.embd := by
  unfold budgetCheck
  split <;> simp

lemma budgetCheck_interacting (p : GptParams) (s : RunState)
    (h : s.is_interacting = true) : (budgetCheck p s).is_interacting = true := by
  unfold budgetCheck
  split <;> simp [h]

lemma step_eq (b : Backend) (p : GptParams) (s : RunState)
    (h : ¬ (s.embd ≠ [] ∧ b.evalFails s.embd s.n_past = true)) :
    step b p s =
      if (midState b p s).embd.getLast? = some b.eos then
        if p.interactive then
          StepResult.next
            (budgetCheck p { midState b p s with is_interacting := true })
            (midEvents b p s)
        else StepResult.brk (midEvents b p s)
      else StepResult.next (budgetCheck p (midState b p s)) (midEvents b p s) := by
  simp only [step, midState, midEvents]
  rw [if_neg h]

lemma step_fail_eq (b : Backend) (p : GptParams) (s : RunState)
    (h : s.embd ≠ [] ∧ b.evalFails s.embd s.n_past = true) :
    step b p s = StepResult.fail [Event.evalCall s.embd s.n_past] := by
  simp only [step]
  rw [if_pos h, if_neg h.1]

lemma step_next_state (b : Backend) (p : GptParams) (s s2 : RunState)
    (evs : List Event) (hstep : step b p s = StepResult.next s2 evs) :
    s2 = budgetCheck p (midState b p s) ∨
    s2 = budgetCheck p { midState b p s with is_interacting := true } := by
  by_cases h : s.embd ≠ [] ∧ b.evalFails s.embd s.n_past = true
  · rw [step_fail_eq b p s h] at hstep
    cases hstep
  · rw [step_eq b p s h] at hstep
    split at hstep
    · split at hstep
      · cases hstep; right; rfl
      · cases hstep
    · cases hstep; left; rfl

lemma step_next_events (b : Backend) (p : GptParams) (s s2 : RunState)
    (evs : List Event) (hstep : step b p s = StepResult.next s2 evs) :
    evs = midEvents b p s := by
  by_cases h : s.embd ≠ [] ∧ b.evalFails s.embd s.n_past = true
  · rw [step_fail_eq b p s h] at hstep
    cases hstep
  · rw [step_eq b p s h] at hstep
    split at hstep
    · split at hstep
      · cases hstep; rfl
      · cases hstep
    · cases hstep; rfl

lemma midState_cursor (b : Backend) (p : GptParams) (s : RunState)
    (h : s.input_consumed ≤ s.embd_inp.length) :
    (midState b p s).input_consumed ≤ (midState b p s).embd_inp.length := by
  unfold midState
  exact interactiveCheck_cursor b p _ (producePhase_cursor b p _ h)

lemma midState_window (b : Backend) (p : GptParams) (s : RunState)
    (h : 0 < s.last_n_tokens.length) :
    (midState b p s).last_n_tokens.length = s.last_n_tokens.length := by
  unfold midState
  rw [interactiveCheck_window]
  exact producePhase_window b p _ h

lemma midState_embd (b : Backend) (p : GptParams) (s : RunState) :
    ∃ ts : List Token, (midState b p s).embd = ts ∧ ts ≠ [] := by
  unfold midState
  rw [interactiveCheck_embd]
  obtain ⟨ts, h1, h2⟩ := producePhase_embd_grows b p
    { s with n_past := s.n_past + s.embd.length, embd := [] }
  exact ⟨ts, by simpa using h1, h2⟩

lemma reachable_cursor_le (b : Backend) (p : GptParams) :
    ∀ s : RunState, Reachable b p s →
      s.input_consumed ≤ s.embd_inp.length := by
  intro s h
  induction h with
  | start inp lines => simp [initState]
  | advance s s2 evs hr hstep ih =>
    obtain h2 | h2 := step_next_state b p s s2 evs hstep <;>
      rw [h2, (budgetCheck_fields p _).1, (budgetCheck_fields p _).2.1] <;>
      exact midState_cursor b p s ih

lemma reachable_window_length (b : Backend) (p : GptParams)
    (hpos : 0 < p.repeat_last_n) :
    ∀ s : RunState, Reachable b p s →
      s.last_n_tokens.length = p.repeat_last_n := by
  intro s h
  induction h with
  | start inp lines => simp [initState]
  | advance s s2 evs hr hstep ih =>
    have hmid : (midState b p s).last_n_tokens.length = p.repeat_last_n := by
      rw [midState_window b p s (by omega), ih]
    obtain h2 | h2 := step_next_state b p s s2 evs hstep <;>
      rw [h2, (budgetCheck_fields p _).2.2.1] <;>
      exact hmid

lemma findAtEnd_iff (hay pat : String) :
    findAtEnd hay pat = true ↔ pat.data <:+ hay.data := by
  unfold findAtEnd
  simp only [Bool.and_eq_true, decide_eq_true_eq]
  constructor
  · rintro ⟨_, hdrop⟩
    rw [List.suffix_iff_eq_drop]
    exact hdrop.symm
  · intro hsuf
    exact ⟨hsuf.length_le, (List.suffix_iff_eq_drop.1 hsuf).symm⟩

lemma readLines_hello : readLines ["hello"] = ("hello\n", []) := by decide

/-- C1: in every reachable loop iteration in which the consumed cursor
is strictly below the pending-queue length, the sampler is not invoked:
pending tokens are forwarded instead (unless the iteration aborts on an
evaluation failure), and a token is sampled only in iterations whose
queue is drained, i.e. whose cursor equals the queue length. -/
theorem sampler_only_when_drained (b : Backend) (p : GptParams)
    (s : RunState) (hr : Reachable b p s) :
    (s.input_consumed < s.embd_inp.length →
       ∀ t : Token, Event.sampled t ∉ (step b p s).events) ∧
    (s.input_consumed < s.embd_inp.length →
       (∀ evs, step b p s ≠ StepResult.fail evs) →
       ∃ t : Token, Event.forwarded t ∈ (step b p s).events) ∧
    (∀ t : Token, Event.sampled t ∈ (step b p s).events →
       s.input_consumed = s.embd_inp.length) := by
  have hinv := reachable_cursor_le b p s hr
  by_cases hf : s.embd ≠ [] ∧ b.evalFails s.embd s.n_past = true
  · rw [step_fail_eq b p s hf]
    refine ⟨?_, ?_, ?_⟩
    · intro _ t ht
      simp [StepResult.events] at ht
    · intro _ hnf
      exact absurd rfl (hnf [Event.evalCall s.embd s.n_past])
    · intro t ht
      simp [StepResult.events] at ht
  · have hev : (step b p s).events = midEvents b p s := by
      rw [step_eq b p s hf]
      split
      · split <;> rfl
      · rfl
    have hkey : ∀ t : Token, Event.sampled t ∈ midEvents b p s →
        s.embd_inp.length ≤ s.input_consumed := by
      intro t ht
      rcases producePhase_events b p
          { s with n_past := s.n_past + s.embd.length, embd := [] } with
        ⟨hdr, _⟩ | ⟨_, hall, _⟩
      · exact hdr
      · exfalso
        unfold midEvents at ht
        simp only [List.mem_append] at ht
        rcases ht with (ht | ht) | ht
        · split at ht <;> simp at ht
        · obtain ⟨t2, ht2⟩ := hall _ ht
          cases ht2
        · rcases interactiveCheck_events b p
              (producePhase b p
                { s with n_past := s.n_past + s.embd.length, embd := [] }).1 with
            hic | hic <;> rw [hic] at ht <;> simp at ht
    refine ⟨?_, ?_, ?_⟩
    · intro hlt t ht
      rw [hev] at ht
      have := hkey t ht
      omega
    · intro hlt _
      rcases producePhase_events b p
          { s with n_past := s.n_past + s.embd.length, embd := [] } with
        ⟨hdr, _⟩ | ⟨_, hall, hne⟩
      · exfalso
        have hdr2 : s.embd_inp.length ≤ s.input_consumed := hdr
        omega
      · obtain ⟨e, he⟩ := List.exists_mem_of_ne_nil _ hne
        obtain ⟨t, rfl⟩ := hall e he
        refine ⟨t, ?_⟩
        rw [hev]
        unfold midEvents
        simp only [List.mem_append]
        left; right; exact he
    · intro t ht
      rw [hev] at ht
      have := hkey t ht
      omega

/-- C1 witness: in the initial stub state the prompt is still pending,
and no sampler invocation happens in that iteration. -/
theorem sampler_only_when_drained_witness :
    Event.sampled 100 ∉ (step CB baseParams S1).events :=
  ((sampler_only_when_drained CB baseParams S1
    (Reachable.start [1, 32] [])).1 (by decide)) 100

/-- C2: the repetition window starts filled with the sentinel token 0
at the configured `repeat_last_n` capacity, every entering token first
evicts the oldest entry and then appends, and across every reachable
loop iteration the window's length stays equal to that capacity. -/
theorem repetition_window_invariant (b : Backend) (p : GptParams)
    (s : RunState) (hr : Reachable b p s) (hpos : 0 < p.repeat_last_n) :
    (∀ (inp : List Token) (lines : List String),
       (initState p inp lines).last_n_tokens
         = List.replicate p.repeat_last_n 0) ∧
    (∀ (w : List Token) (t : Token), pushWindow w t = w.tail ++ [t]) ∧
    s.last_n_tokens.length = p.repeat_last_n := by
  exact ⟨fun inp lines => rfl, fun w t => rfl,
    reachable_window_length b p hpos s hr⟩

/-- C2 witness: the capacity-4 stub window has length 4 at the initial
state. -/
theorem repetition_window_invariant_witness :
    (initState baseParams [1, 32] []).last_n_tokens.length
      = baseParams.repeat_last_n :=
  (repetition_window_invariant CB baseParams (initState baseParams [1, 32] [])
    (Reachable.start [1, 32] []) (by decide)).2.2

/-- C3 counterexample: in the interactive stub session with an initial
budget of 3 and a sampler that never returns end-of-sequence, the
number of sampled tokens before the first input solicitation is 4, not
3: the budget check that raises the interject flag runs at the end of
an iteration, and the next iteration samples once more before its
solicitation check. -/
theorem budget_refill_counterexample :
    samplesBeforeFirstSolicit (runSession CB baseParams ["hi"] 6).1 = 4 ∧
    samplesBeforeFirstSolicit (runSession CB baseParams ["hi"] 6).1 ≠ 3 ∧
    Event.solicited "hi\n" ∈ (runSession CB baseParams ["hi"] 6).1 := by
  refine ⟨by decide, by decide, by decide⟩

/-- C3 (amended): in an interactive session, when the generation budget
reaches 0 (or below) it is reset to the configured initial budget and
the interject flag is raised; the solicitation happens at the next
check, which is reached only after one further token is sampled at the
top of the following iteration, so with an initial budget of 3 exactly
4 automatic samples occur before the next input solicitation. -/
theorem budget_refill (p : GptParams) (s : RunState)
    (hint : p.interactive = true) (hz : s.remaining_tokens ≤ 0) :
    budgetCheck p s =
      { s with remaining_tokens := p.n_predict, is_interacting := true } ∧
    samplesBeforeFirstSolicit (runSession CB baseParams ["hi"] 6).1 = 4 ∧
    Event.solicited "hi\n" ∈ (runSession CB baseParams ["hi"] 6).1 := by
  refine ⟨?_, by decide, by decide⟩
  unfold budgetCheck
  rw [if_pos ⟨hint, hz⟩]

/-- C3 witness: a concrete exhausted interactive state is refilled to
the configured budget with the interject flag raised. -/
theorem budget_refill_witness :
    budgetCheck baseParams
        { embd_inp := [], input_consumed := 0, last_n_tokens := [0, 0, 0, 0],
          embd := [100], n_past := 3, remaining_tokens := 0,
          is_interacting := false, input_noecho := false, lines := [] } =
      { embd_inp := [], input_consumed := 0, last_n_tokens := [0, 0, 0, 0],
        embd := [100], n_past := 3, remaining_tokens := baseParams.n_predict,
        is_interacting := true, input_noecho := false, lines := [] } :=
  (budget_refill baseParams
    { embd_inp := [], input_consumed := 0, last_n_tokens := [0, 0, 0, 0],
      embd := [100], n_past := 3, remaining_tokens := 0,
      is_interacting := false, input_noecho := false, lines := [] }
    rfl (by decide)).1

/-- C4: the reverse-prompt test is an exact, case-sensitive suffix
match on the text rendered from the repetition window: it succeeds
exactly when the antiprompt is a suffix of the rendered text; on the
concrete texts of the spec, the matching-case text triggers and the
case-differing text does not; a hit makes the drained interactive
state solicit input, and without a hit (and with no pending interject
flag) this rule produces no transition to soliciting input. -/
theorem antiprompt_exact_suffix (b : Backend) (p : GptParams)
    (s : RunState) (hint : p.interactive = true)
    (hdr : s.embd_inp.length ≤ s.input_consumed) :
    (∀ hay pat : String, findAtEnd hay pat = true ↔ pat.data <:+ hay.data) ∧
    findAtEnd "x### Instruction:\n\n" "### Instruction:\n\n" = true ∧
    findAtEnd "x### instruction:\n\n" "### Instruction:\n\n" = false ∧
    (checkAntiprompts p.antiprompt (render b s.last_n_tokens) = true →
       (interactiveCheck b p s).2
         = [Event.solicited (readLines s.lines).1]) ∧
    (s.is_interacting = false →
       checkAntiprompts p.antiprompt (render b s.last_n_tokens) = false →
       (interactiveCheck b p s).2 = [] ∧
       (interactiveCheck b p s).1.is_interacting = false) := by
  refine ⟨findAtEnd_iff, by decide, by decide, ?_, ?_⟩
  · intro hhit
    simp only [interactiveCheck]
    rw [if_pos ⟨hint, hdr⟩, if_pos (Or.inr hhit)]
  · intro hflag hhit
    simp only [interactiveCheck]
    rw [if_pos ⟨hint, hdr⟩, if_neg (by simp [hflag, hhit])]
    exact ⟨rfl, rfl⟩

/-- C4 witness: with antiprompt `### Instruction:\n\n` and a window
rendering to `x### Instruction:\n\n`, the drained interactive state
solicits input. -/
theorem antiprompt_exact_suffix_witness :
    (interactiveCheck CB antipromptParams S4).2
      = [Event.solicited (readLines S4.lines).1] :=
  (antiprompt_exact_suffix CB antipromptParams S4 rfl
    (by decide)).2.2.2.1 (by decide)

/-- C5: with instruct mode on, soliciting user text `hello` appends to
the pending queue, in order, the tokenization of the instruction
prefix, of `hello` followed by a newline, and of the response suffix,
and advances the consumed cursor to the queue's pre-injection length
so that the injected prefix is forwarded as pending input. -/
theorem instruct_wraps_input (b : Backend) (p : GptParams) (s : RunState)
    (hint : p.interactive = true) (hinstr : p.instruct = true)
    (hdr : s.embd_inp.length ≤ s.input_consumed)
    (hflag : s.is_interacting = true)
    (hlines : s.lines = ["hello"]) :
    inp_pfx b = b.tokenize "\n\n### Instruction:\n\n" true ∧
    inp_sfx b = b.tokenize "\n\n### Response:\n\n" false ∧
    (interactiveCheck b p s).1.embd_inp =
      s.embd_inp ++ inp_pfx b ++ b.tokenize "hello\n" false ++ inp_sfx b ∧
    (interactiveCheck b p s).1.input_consumed = s.embd_inp.length := by
  refine ⟨rfl, rfl, ?_, ?_⟩ <;>
  · simp only [interactiveCheck]
    rw [if_pos ⟨hint, hdr⟩, if_pos (Or.inl hflag)]
    simp [hinstr, hlines, readLines_hello]

/-- C5 witness: in a concrete instruct-mode state with input `hello`,
the cursor lands on the pre-injection queue length. -/
theorem instruct_wraps_input_witness :
    (interactiveCheck CB instructParams S5).1.input_consumed
      = S5.embd_inp.length :=
  (instruct_wraps_input CB instructParams S5 rfl rfl (by decide)
    rfl rfl).2.2.2

/-- C6: with interactive mode off and a backend whose first sample is
the end-of-sequence token, the session ends normally (result 0) after
exactly one sampled token and no evaluation call follows the sample;
with interactive mode on, an iteration never leaves the loop through
the end-of-text break, and an iteration whose batch ends in the
end-of-sequence token raises the interject flag instead. -/
theorem eos_termination (b : Backend) (p : GptParams) (s s2 : RunState)
    (evs : List Event) (hint : p.interactive = true) :
    (runSession CBeos noninteractiveParams [] 10).2 = some 0 ∧
    ((runSession CBeos noninteractiveParams [] 10).1.filter
        Event.isSampled).length = 1 ∧
    (afterFirstSample (runSession CBeos noninteractiveParams [] 10).1).filter
        Event.isEvalCall = [] ∧
    step b p s ≠ StepResult.brk evs ∧
    (step b p s = StepResult.next s2 evs →
       s2.embd.getLast? = some b.eos → s2.is_interacting = true) := by
  refine ⟨by decide, by decide, by decide, ?_, ?_⟩
  · intro hbrk
    by_cases hf : s.embd ≠ [] ∧ b.evalFails s.embd s.n_past = true
    · rw [step_fail_eq b p s hf] at hbrk
      cases hbrk
    · rw [step_eq b p s hf] at hbrk
      split at hbrk
      · simp [hint] at hbrk
      · cases hbrk
  · intro hstep heos
    by_cases hf : s.embd ≠ [] ∧ b.evalFails s.embd s.n_past = true
    · rw [step_fail_eq b p s hf] at hstep
      cases hstep
    · rw [step_eq b p s hf] at hstep
      split at hstep
      · cases hstep
        exact budgetCheck_interacting p _ rfl
      · cases hstep
        rename_i hne
        exact absurd (by rwa [(budgetCheck_fields p _).2.2.2] at heos) hne

/-- C6 witness: from a drained interactive state the eos-sampling stub
continues (does not terminate) with the interject flag raised. -/
theorem eos_termination_witness : S6x.is_interacting = true :=
  (eos_termination CBeos budgetFiveParams S6 S6x [Event.sampled 2]
    rfl).2.2.2.2 (by decide) (by decide)

/-- C7: a failing backend evaluation is not retried: the iteration
emits exactly the one evaluation call, the session terminates at once
with result 1, and no sampling, forwarding or solicitation events
follow the failing call. -/
theorem eval_failure_fatal (b : Backend) (p : GptParams) (s : RunState)
    (hne : s.embd ≠ []) (hf : b.evalFails s.embd s.n_past = true) :
    step b p s = StepResult.fail [Event.evalCall s.embd s.n_past] ∧
    (∀ fuel : Nat, (0 < s.remaining_tokens ∨ p.interactive = true) →
       loop b p (fuel + 1) s = ([Event.evalCall s.embd s.n_past], some 1)) := by
  have hstep := step_fail_eq b p s ⟨hne, hf⟩
  refine ⟨hstep, fun fuel hcond => ?_⟩
  simp only [loop]
  rw [if_pos hcond, hstep]

/-- C7 witness: the failing stub backend aborts a concrete iteration
with exactly one evaluation call. -/
theorem eval_failure_fatal_witness :
    step CBfail baseParams S7 = StepResult.fail [Event.evalCall [7] 1] :=
  (eval_failure_fatal CBfail baseParams S7 (by decide) (by decide)).1

/-- C8: a first interrupt with no pending interjection raises the
interject flag and lets the process continue; a second interrupt
before the flag is consumed exits the process with status 130. -/
theorem double_interrupt_exits :
    sigint_handler false = SigAction.continueWith true ∧
    sigint_handler true = SigAction.exitProcess 130 :=
  ⟨rfl, rfl⟩

/-- C9: instruct mode forces interactive mode on and registers the
instruction marker as an antiprompt; a non-empty antiprompt list, or
the start-soliciting flag, each force interactive mode on as well. -/
theorem mode_normalization (p : GptParams) :
    (p.instruct = true →
       (normalizeParams p).interactive = true ∧
       "### Instruction:\n\n" ∈ (normalizeParams p).antiprompt) ∧
    (p.antiprompt ≠ [] → (normalizeParams p).interactive = true) ∧
    (p.interactive_start = true → (normalizeParams p).interactive = true) := by
  by_cases h1 : p.instruct <;> by_cases h2 : p.antiprompt = [] <;>
    by_cases h3 : p.interactive_start <;>
    simp [normalizeParams, h1, h2, h3]

/-- C9 witness: instruct mode alone switches interactive mode on. -/
theorem mode_normalization_witness :
    (normalizeParams instructOnlyParams).interactive = true :=
  ((mode_normalization instructOnlyParams).1 rfl).1

/-- C10: the produce phase of every iteration leaves a non-empty batch
(exactly one appended sampled token when the queue is drained), so at
the end-of-text check point of every iteration the batch read by
`embd.back()` is non-empty and its last element is well-defined. -/
theorem batch_nonempty_at_eos_check (b : Backend) (p : GptParams)
    (s : RunState) :
    (producePhase b p s).1.embd ≠ [] ∧
    (s.embd_inp.length ≤ s.input_consumed →
       (producePhase b p s).1.embd = s.embd ++ [b.sample s.last_n_tokens]) ∧
    (midState b p s).embd ≠ [] ∧
    (midState b p s).embd.getLast?.isSome = true := by
  have h3 : (midState b p s).embd ≠ [] := by
    obtain ⟨ts, heq, hne⟩ := midState_embd b p s
    rw [heq]; exact hne
  refine ⟨?_, ?_, h3, by simp [List.getLast?_isSome, h3]⟩
  · obtain ⟨ts, heq, hne⟩ := producePhase_embd_grows b p s
    rw [heq]
    simp [hne]
  · intro hdr
    rw [producePhase_drained b p s hdr]

/-- C10 witness: from the drained concrete state the produce phase
appends exactly the sampled token. -/
theorem batch_nonempty_at_eos_check_witness :
    (producePhase CB baseParams S6).1.embd
      = S6.embd ++ [CB.sample S6.last_n_tokens] :=
  (batch_nonempty_at_eos_check CB baseParams S6).2.1 (by decide)

end LlamaRun
